/-
Verification of the emergency dispatch / hospital rating core.

This file gives a shallow embedding, in Lean 4, of the algorithmic core of
the road-accident response repository:

* `hospital_rating_system.py` — the rating ledger (`HospitalRatingSystem`,
  `HospitalPerformance.calculate_new_rating`), embedded as pure state-passing
  functions over a `Store`; SQLite effects become list manipulations, and the
  possibility of a persistence failure becomes an explicit boolean parameter
  (failure triggers the same rollback the `except` branch performs).
* `emergency_route_finder.py` — the bidirectional Dijkstra pathfinder
  (`BidirectionalDijkstra.find_shortest_path`), the graph cache
  (`get_road_network`) and the route front-end
  (`find_optimal_hospital_route`), with external collaborators (OSMnx graph
  download, nearest-node lookup, haversine over machine floats) passed in as
  function parameters.
* `emergency_response_system.py` — the candidate scoring/selection and
  alternates logic of `EmergencyResponseSystem.handle_accident`.

Numeric values are embedded as `ℚ` (all constants of the program are exactly
representable and every computation relevant to a theorem below is exact in
binary floating point as well); Python's banker's rounding `round` is
`pyRound`; Python truthiness of a nullable float (`x if x else d`) is
`truthyOr`.
-/
import Mathlib

/-- Python `round` on a rational: round half to even (banker's rounding). -/
def pyRound (x : ℚ) : ℤ :=
  let f := ⌊x⌋
  let r := x - f
  if r < 1/2 then f
  else if 1/2 < r then f + 1
  else if f % 2 = 0 then f else f + 1

/-- SQL `AVG` over a column: `NULL` (`none`) for an empty set of rows. -/
def sqlAvg (xs : List ℚ) : Option ℚ :=
  if xs.isEmpty then none else some (xs.sum / xs.length)

/-- Python `v if v else d` for a nullable float `v`: the default is taken both
when `v` is `None` and when `v == 0.0` (zero is falsy). -/
def truthyOr (v : Option ℚ) (d : ℚ) : ℚ :=
  match v with
  | none => d
  | some q => if q = 0 then d else q

/-- `q` is a half-star value: a multiple of `0.5` lying in `[0, 5]`. -/
def halfStar (q : ℚ) : Prop := ∃ k : ℕ, k ≤ 10 ∧ q = (k : ℚ) / 2

/-- Response-time component of `HospitalPerformance.calculate_new_rating`:
`max(0, min(100, 100 - (avg_response / 60) * 50))`. -/
def response_score (avg_response : ℚ) : ℚ :=
  max 0 (min 100 (100 - avg_response / 60 * 50))

/-- Weighted overall score of `calculate_new_rating`:
`success_rate * 0.40 + (quality / 100) * 0.35 + (response_score / 100) * 0.25`. -/
def overall_score (success_rate quality rscore : ℚ) : ℚ :=
  success_rate * (2/5) + quality / 100 * (7/20) + rscore / 100 * (1/4)

/-- `HospitalPerformance.calculate_new_rating`: default `2.5` with no cases,
otherwise the weighted score converted to stars and rounded to nearest half. -/
def calculate_new_rating (total_cases successful_outcomes : ℕ)
    (average_response_time quality : ℚ) : ℚ :=
  if total_cases = 0 then 5/2
  else
    let success_rate : ℚ := (successful_outcomes : ℚ) / (total_cases : ℚ)
    let rscore := response_score average_response_time
    let overall := overall_score success_rate quality rscore
    let new_rating := overall * 5
    (pyRound (new_rating * 2) : ℚ) / 2

/-- A row of the `hospitals` table. -/
structure Facility where
  fid : ℕ
  name : String
  current_rating : ℚ
  total_cases : ℕ
  successful_outcomes : ℕ
  total_response_time : ℚ
deriving DecidableEq

/-- A row of the `case_history` table. -/
structure CaseRecord where
  hospital_id : ℕ
  accident_id : String
  outcome : String
  quality : ℚ
  response : ℚ
deriving DecidableEq

/-- A row of the `rating_history` table. -/
structure RatingChange where
  hospital_id : ℕ
  old_rating : ℚ
  new_rating : ℚ
deriving DecidableEq

/-- The SQLite database of `HospitalRatingSystem`. -/
structure Store where
  hospitals : List Facility
  case_history : List CaseRecord
  rating_history : List RatingChange
deriving DecidableEq

def emptyStore : Store := ⟨[], [], []⟩

/-- `HospitalRatingSystem.get_hospital_id`. -/
def get_hospital_id (s : Store) (name : String) : Option ℕ :=
  (s.hospitals.find? (fun f => f.name == name)).map (·.fid)

/-- Next `AUTOINCREMENT` id for the `hospitals` table. -/
def nextId (s : Store) : ℕ :=
  (s.hospitals.map (·.fid)).foldr Nat.max 0 + 1

/-- `HospitalRatingSystem.register_hospital`: `INSERT OR IGNORE` on the unique
`name` column followed by `SELECT id`; a fresh row gets the column defaults
`current_rating = 2.5` and zero counters. -/
def register_hospital (s : Store) (name : String) : Option ℕ × Store :=
  match get_hospital_id s name with
  | some i => (some i, s)
  | none =>
    let f : Facility := ⟨nextId s, name, 5/2, 0, 0, 0⟩
    (some (nextId s), { s with hospitals := s.hospitals ++ [f] })

/-- The rating recomputation inside `_update_hospital_rating`: SQL averages of
quality and response time over the facility's case history, with Python-truthy
defaults `50.0` and `60.0`, fed into `calculate_new_rating`. -/
def recompute_rating (total_cases successful_outcomes : ℕ)
    (quals resps : List ℚ) : ℚ :=
  calculate_new_rating total_cases successful_outcomes
    (truthyOr (sqlAvg resps) 60) (truthyOr (sqlAvg quals) 50)

/-- Replace a facility row's rating (the `UPDATE hospitals SET current_rating`
statement). -/
def withRating (f : Facility) (q : ℚ) : Facility := { f with current_rating := q }

/-- `HospitalRatingSystem._update_hospital_rating`: reread the facility row,
recompute the rating from all of its case history, write the rating back, and
append a `rating_history` row when the change is at least `0.1`. -/
def update_hospital_rating (s : Store) (hid : ℕ) : Store :=
  match s.hospitals.find? (fun f => f.fid == hid) with
  | none => s
  | some f =>
    let records := s.case_history.filter (fun r => r.hospital_id == hid)
    let quals := records.map (·.quality)
    let resps := records.map (·.response)
    let new_rating := recompute_rating f.total_cases f.successful_outcomes quals resps
    let hs := s.hospitals.map (fun g => if g.fid == hid then withRating g new_rating else g)
    let s1 : Store := { s with hospitals := hs }
    if 1/10 ≤ |new_rating - f.current_rating| then
      { s1 with rating_history := s1.rating_history ++ [⟨hid, f.current_rating, new_rating⟩] }
    else s1

/-- Arguments of `record_case_outcome`. -/
structure OutcomeArgs where
  hospital_name : String
  accident_id : String
  outcome : String
  quality : ℚ
  response : ℚ
deriving DecidableEq

/-- Counter update performed by the `UPDATE hospitals SET ...` statement of
`record_case_outcome`. -/
def bumpCounters (a : OutcomeArgs) (g : Facility) : Facility :=
  { g with
    total_cases := g.total_cases + 1,
    successful_outcomes := g.successful_outcomes + (if a.outcome == "successful" then 1 else 0),
    total_response_time := g.total_response_time + a.response }

/-- State after the first two statements of the transaction: the case-history
insert and the counter update on the facility row. -/
def recordSuccessState (s : Store) (a : OutcomeArgs) (hid : ℕ) : Store :=
  let newRec : CaseRecord := ⟨hid, a.accident_id, a.outcome, a.quality, a.response⟩
  let hist := s.case_history ++ [newRec]
  let hs := s.hospitals.map (fun g => if g.fid == hid then bumpCounters a g else g)
  { s with case_history := hist, hospitals := hs }

/-- `HospitalRatingSystem.record_case_outcome`. The facility is looked up (and
auto-registered when missing, on a separately committed connection); then the
case insert, counter update and rating recomputation run in one transaction.
`persistFail = true` models an exception inside the transaction: the `except`
branch rolls everything back and returns `False`. -/
def lookupOrRegister (s : Store) (name : String) : Option ℕ × Store :=
  match get_hospital_id s name with
  | some i => (some i, s)
  | none => register_hospital s name

def record_case_outcome (s : Store) (a : OutcomeArgs) (persistFail : Bool) :
    Bool × Store :=
  match lookupOrRegister s a.hospital_name with
  | (none, s1) => (false, s1)
  | (some hid, s1) =>
    if persistFail then (false, s1)
    else (true, update_hospital_rating (recordSuccessState s1 a hid) hid)

/-- Current rating of the facility named `name`, as exposed by
`get_hospital_rating` (the `current_rating` field of the returned dict). -/
def ratingOf (s : Store) (name : String) : Option ℚ :=
  (s.hospitals.find? (fun f => f.name == name)).map (·.current_rating)

/-- The `ORDER BY current_rating DESC, total_cases DESC` ordering of
`get_top_hospitals`. -/
def topOrder (a b : Facility) : Prop :=
  b.current_rating < a.current_rating ∨
    (a.current_rating = b.current_rating ∧ b.total_cases ≤ a.total_cases)

instance : DecidableRel topOrder := fun a b => by
  unfold topOrder; infer_instance

/-- `HospitalRatingSystem.get_top_hospitals`: rows with `total_cases > 0`,
ordered by rating descending then case volume descending, truncated by
`LIMIT`. -/
def get_top_hospitals (s : Store) (limit : ℕ) : List Facility :=
  ((s.hospitals.filter (fun f => 0 < f.total_cases)).insertionSort topOrder).take limit

/-- A road-network graph as the pathfinder sees it: a node list, successor and
predecessor adjacency (ordered as the underlying dict iteration), edge weights
(the `length` attribute, here in whole meters), and node coordinates. -/
structure DiGraph where
  nodes : List Nat
  succs : Nat → List (Nat × Nat)
  preds : Nat → List (Nat × Nat)
  nodeXY : Nat → ℚ × ℚ

/-- Lexicographic comparison of `(distance, node)` heap entries, as Python
tuple comparison orders them in `heapq`. -/
def pairLe (a b : Nat × Nat) : Bool :=
  decide (a.1 < b.1 ∨ (a.1 = b.1 ∧ a.2 ≤ b.2))

/-- Least entry of the heap, by `(distance, node)`. -/
def heapMin : List (Nat × Nat) → Option (Nat × Nat)
  | [] => none
  | x :: xs =>
    match heapMin xs with
    | none => some x
    | some m => some (if pairLe x m then x else m)

/-- `heappop`: remove and return the least `(distance, node)` entry. -/
def popMin (l : List (Nat × Nat)) : Option ((Nat × Nat) × List (Nat × Nat)) :=
  match heapMin l with
  | none => none
  | some m => some (m, l.erase m)

/-- The mutable state of `BidirectionalDijkstra.find_shortest_path`: forward
and backward tentative distances, predecessors, heaps and visited sets, plus
the running meeting point and best known total distance (`none` = infinity).
Distance maps are association lists updated by shadowing cons. -/
structure BDState where
  fDist : List (Nat × Nat)
  fPrev : List (Nat × Option Nat)
  fHeap : List (Nat × Nat)
  fVisited : List Nat
  bDist : List (Nat × Nat)
  bPrev : List (Nat × Option Nat)
  bHeap : List (Nat × Nat)
  bVisited : List Nat
  meeting : Option Nat
  minTotal : Option Nat
deriving DecidableEq

/-- Update the meeting point when a candidate total beats the best known. -/
def updMeet (meeting minTotal : Option Nat) (node total : Nat) :
    Option Nat × Option Nat :=
  match minTotal with
  | none => (some node, some total)
  | some mt => if total < mt then (some node, some total) else (meeting, some mt)

/-- Result of one direction's step: `cont` models Python's `continue` (a
stale heap entry was popped), `fall` falls through to the rest of the loop
body. -/
inductive StepOut where
  | cont (st : BDState)
  | fall (st : BDState)

/-- Forward relaxation over the successor list of the settled node. -/
def relaxF (d n : Nat) : List (Nat × Nat) → BDState → BDState
  | [], st => st
  | (nb, w) :: rest, st =>
    if st.fVisited.contains nb then relaxF d n rest st
    else
      let nd := d + w
      let better := match List.lookup nb st.fDist with
        | none => true
        | some old => decide (nd < old)
      let st1 := if better then
          { st with fDist := (nb, nd) :: st.fDist, fPrev := (nb, some n) :: st.fPrev,
                    fHeap := (nd, nb) :: st.fHeap }
        else st
      let st2 := match List.lookup nb st1.bDist with
        | some bd =>
          let m := updMeet st1.meeting st1.minTotal nb (nd + bd)
          { st1 with meeting := m.1, minTotal := m.2 }
        | none => st1
      relaxF d n rest st2

/-- Backward relaxation over the predecessor list of the settled node. -/
def relaxB (d n : Nat) : List (Nat × Nat) → BDState → BDState
  | [], st => st
  | (pd, w) :: rest, st =>
    if st.bVisited.contains pd then relaxB d n rest st
    else
      let nd := d + w
      let better := match List.lookup pd st.bDist with
        | none => true
        | some old => decide (nd < old)
      let st1 := if better then
          { st with bDist := (pd, nd) :: st.bDist, bPrev := (pd, some n) :: st.bPrev,
                    bHeap := (nd, pd) :: st.bHeap }
        else st
      let st2 := match List.lookup pd st1.fDist with
        | some fd =>
          let m := updMeet st1.meeting st1.minTotal pd (nd + fd)
          { st1 with meeting := m.1, minTotal := m.2 }
        | none => st1
      relaxB d n rest st2

/-- The forward half of the loop body (`if forward_heap: ...`). -/
def forwardStep (g : DiGraph) (st : BDState) : StepOut :=
  match popMin st.fHeap with
  | none => .fall st
  | some ((d, n), rest) =>
    if st.fVisited.contains n then .cont { st with fHeap := rest }
    else
      let st1 := { st with fHeap := rest, fVisited := n :: st.fVisited }
      let st2 := match List.lookup n st1.bDist with
        | some bd =>
          let m := updMeet st1.meeting st1.minTotal n (d + bd)
          { st1 with meeting := m.1, minTotal := m.2 }
        | none => st1
      .fall (relaxF d n (g.succs n) st2)

/-- The backward half of the loop body (`if backward_heap: ...`). -/
def backwardStep (g : DiGraph) (st : BDState) : StepOut :=
  match popMin st.bHeap with
  | none => .fall st
  | some ((d, n), rest) =>
    if st.bVisited.contains n then .cont { st with bHeap := rest }
    else
      let st1 := { st with bHeap := rest, bVisited := n :: st.bVisited }
      let st2 := match List.lookup n st1.fDist with
        | some fd =>
          let m := updMeet st1.meeting st1.minTotal n (d + fd)
          { st1 with meeting := m.1, minTotal := m.2 }
        | none => st1
      .fall (relaxB d n (g.preds n) st2)

/-- Walk a predecessor chain, exactly as the reconstruction loops do
(`while node is not None: path.append(node); node = prev.get(node)`). -/
def walkPrev (prev : List (Nat × Option Nat)) : Nat → Nat → List Nat
  | 0, _ => []
  | fuel + 1, node =>
    node :: (match List.lookup node prev with
      | some (some p) => walkPrev prev fuel p
      | _ => [])

/-- Path reconstruction at the meeting point: reversed forward chain followed
by the backward chain (meeting point not duplicated). -/
def reconstructPath (st : BDState) (m : Nat) : List Nat :=
  let fuel := st.fPrev.length + st.bPrev.length + 1
  let fPath := (walkPrev st.fPrev fuel m).reverse
  let bPath := match List.lookup m st.bPrev with
    | some (some p) => walkPrev st.bPrev fuel p
    | _ => []
  fPath ++ bPath

/-- The main `while forward_heap or backward_heap` loop. The outer `none`
means fuel ran out; `some none` is the program's `(None, float('inf'))`. The
loop returns as soon as a meeting point with a finite best total exists at
the end of an iteration (Python truthiness: a meeting node `0` is falsy). -/
def bdLoop (g : DiGraph) : Nat → BDState → Option (Option (List Nat × Nat))
  | 0, _ => none
  | fuel + 1, st =>
    if st.fHeap.isEmpty && st.bHeap.isEmpty then some none
    else
      match forwardStep g st with
      | .cont st1 => bdLoop g fuel st1
      | .fall st1 =>
        match backwardStep g st1 with
        | .cont st2 => bdLoop g fuel st2
        | .fall st2 =>
          match st2.meeting, st2.minTotal with
          | some m, some mt =>
            if m ≠ 0 then some (some (reconstructPath st2 m, mt))
            else bdLoop g fuel st2
          | _, _ => bdLoop g fuel st2

/-- Initial search state for given source and target. -/
def initBD (source target : Nat) : BDState :=
  ⟨[(source, 0)], [(source, none)], [(0, source)], [],
   [(target, 0)], [(target, none)], [(0, target)], [], none, none⟩

/-- `BidirectionalDijkstra.find_shortest_path`, fuel-indexed. -/
def find_shortest_path (g : DiGraph) (source target : Nat) (fuel : Nat) :
    Option (Option (List Nat × Nat)) :=
  if source = target then some (some ([source], 0))
  else bdLoop g fuel (initBD source target)

/-- State of the reference single-source Dijkstra. -/
structure DjState where
  dist : List (Nat × Nat)
  visited : List Nat
deriving DecidableEq

/-- Pick the unvisited node of least tentative distance. -/
def djPick (nodes : List Nat) (st : DjState) : Option (Nat × Nat) :=
  nodes.foldl (fun acc n =>
    if st.visited.contains n then acc
    else
      match List.lookup n st.dist with
      | none => acc
      | some d =>
        match acc with
        | none => some (n, d)
        | some (m, dm) => if d < dm then some (n, d) else some (m, dm)) none

/-- Relax all successors of the settled node. -/
def djRelax (du : Nat) : List (Nat × Nat) → DjState → DjState
  | [], st => st
  | (v, w) :: rest, st =>
    let nd := du + w
    let better := match List.lookup v st.dist with
      | none => true
      | some dv => decide (nd < dv)
    let st1 := if better then { st with dist := (v, nd) :: st.dist } else st
    djRelax du rest st1

/-- Main loop of the reference Dijkstra. -/
def djLoop (g : DiGraph) : Nat → DjState → DjState
  | 0, st => st
  | fuel + 1, st =>
    match djPick g.nodes st with
    | none => st
    | some (u, du) =>
      djLoop g fuel (djRelax du (g.succs u) { st with visited := u :: st.visited })

/-- Reference single-source Dijkstra: final tentative-distance map from
`source`; `List.lookup t` on it is the shortest-path distance to `t`
(`none` = unreachable). -/
def dijkstra (g : DiGraph) (source : Nat) : List (Nat × Nat) :=
  (djLoop g (g.nodes.length + 1) ⟨[(source, 0)], []⟩).dist

/-- Successors of the counterexample graph: a direct edge `1 → 5` of length
10 (inserted first) and a four-hop path `1 → 2 → 3 → 4 → 5` of total length
4. -/
def exSuccs : Nat → List (Nat × Nat)
  | 1 => [(5, 10), (2, 1)]
  | 2 => [(3, 1)]
  | 3 => [(4, 1)]
  | 4 => [(5, 1)]
  | _ => []

/-- Predecessor adjacency of the same graph. -/
def exPreds : Nat → List (Nat × Nat)
  | 2 => [(1, 1)]
  | 3 => [(2, 1)]
  | 4 => [(3, 1)]
  | 5 => [(1, 10), (4, 1)]
  | _ => []

/-- The concrete counterexample graph. -/
def exG : DiGraph := ⟨[1, 2, 3, 4, 5], exSuccs, exPreds, fun _ => (0, 0)⟩

/-- Graph cache of `EmergencyRouteFinder`: key = (latitude and longitude
rounded to 4 decimal places, radius), matching the formatted string key
built by `get_road_network`. -/
def roundKey (q : ℚ) : ℤ := pyRound (q * 10000)

def mkKey (lat lon : ℚ) (radius : ℤ) : ℤ × ℤ × ℤ :=
  (roundKey lat, roundKey lon, radius)

/-- The memoized graph cache (`self.graph_cache`). -/
def GraphCache := List ((ℤ × ℤ × ℤ) × DiGraph)

/-- `EmergencyRouteFinder.get_road_network`: on a hit return the cached graph
unchanged; on a miss ask the external provider (`ox.graph_from_point`), cache
a success, and return `none` (the Python `None` after the `except` branch)
without caching on a provider failure. -/
def get_road_network (cache : GraphCache) (provider : ℤ × ℤ × ℤ → Option DiGraph)
    (lat lon : ℚ) (radius : ℤ) : Option DiGraph × GraphCache :=
  let key := mkKey lat lon radius
  match List.lookup key cache with
  | some g => (some g, cache)
  | none =>
    match provider key with
    | some g => (some g, (key, g) :: cache)
    | none => (none, cache)

/-- The result dictionary of `find_optimal_hospital_route` (absent keys of the
failure dictionaries are modeled by default values). -/
structure RouteOutcome where
  success : Bool
  path_nodes : List Nat
  path_coordinates : List (ℚ × ℚ)
  distance_km : ℚ
  fast_mode : Bool
deriving DecidableEq

/-- The fast-mode branch: straight-line distance via the haversine
collaborator `hav`, with a two-point path from hospital to accident. -/
def fast_route (hav : ℚ → ℚ → ℚ → ℚ → ℚ) (alat alon hlat hlon : ℚ) :
    RouteOutcome :=
  ⟨true, [], [(hlat, hlon), (alat, alon)], hav alat alon hlat hlon, true⟩

/-- Coordinates of a node path, from the graph's node attributes. -/
def pathCoords (g : DiGraph) (path : List Nat) : List (ℚ × ℚ) :=
  path.map g.nodeXY

/-- `EmergencyRouteFinder.find_optimal_hospital_route`, threading the graph
cache. External collaborators are parameters: `hav` (haversine on machine
floats), `nearestNode` (`ox.distance.nearest_nodes`, `none` = raised) and
`provider` (graph download). In routed mode the network is centered on the
midpoint; if the network is unavailable the function recurses in fast mode. -/
def find_optimal_hospital_route (hav : ℚ → ℚ → ℚ → ℚ → ℚ)
    (nearestNode : DiGraph → ℚ → ℚ → Option Nat)
    (provider : ℤ × ℤ × ℤ → Option DiGraph) (fuel : Nat) (cache : GraphCache)
    (alat alon hlat hlon : ℚ) (radius : ℤ) (fast : Bool) :
    RouteOutcome × GraphCache :=
  if fast then (fast_route hav alat alon hlat hlon, cache)
  else
    let clat := (alat + hlat) / 2
    let clon := (alon + hlon) / 2
    match get_road_network cache provider clat clon radius with
    | (none, cache1) => (fast_route hav alat alon hlat hlon, cache1)
    | (some g, cache1) =>
      match nearestNode g alon alat, nearestNode g hlon hlat with
      | some accidentNode, some hospitalNode =>
        match find_shortest_path g hospitalNode accidentNode fuel with
        | some (some (path, dm)) =>
          (⟨true, path, pathCoords g path, (dm : ℚ) / 1000, false⟩, cache1)
        | _ => (⟨false, [], [], 0, false⟩, cache1)
      | _, _ => (⟨false, [], [], 0, false⟩, cache1)

/-- A successfully routed candidate as `handle_accident` sees it: facility
name, route distance in km, current rating, and the optional ICU/readiness
bonus from the richer dataset. -/
structure Cand where
  cname : String
  dist : ℚ
  rating : ℚ
  extra : ℚ
deriving DecidableEq

instance : Inhabited Cand := ⟨⟨"", 0, 0, 0⟩⟩

/-- The combined score of `handle_accident`:
`route_score * 0.55 + rating_score * 0.35 + extra` with
`route_score = 1 / (distance + 0.1)` and `rating_score = rating / 5`. -/
def combined_score (c : Cand) : ℚ :=
  1 / (c.dist + 1/10) * (11/20) + c.rating / 5 * (7/20) + c.extra

/-- The selection scan: `best_score` starts at `-1` and is replaced only on a
strictly greater score. -/
def selectLoop : List Cand → Option Cand → ℚ → Option Cand × ℚ
  | [], best, bs => (best, bs)
  | c :: cs, best, bs =>
    if bs < combined_score c then selectLoop cs (some c) (combined_score c)
    else selectLoop cs best bs

/-- Winner of the scan over the first five candidates, with the
`if not best_hospital` fallback to the nearest candidate. -/
def select_hospital (cs : List Cand) : Option Cand :=
  match (selectLoop (cs.take 5) none (-1)).1 with
  | some c => some c
  | none => cs.head?

/-- The post-routing core of `EmergencyResponseSystem.handle_accident`: sort
the successfully routed candidates by route distance, pick the winner by
score, and return it together with the alternates `hospitals_with_routes[1:3]`.
`none` models the "No hospitals with valid routes found" failure. -/
def handle_accident_core (cands : List Cand) : Option (Cand × List Cand) :=
  let sorted := cands.insertionSort (fun a b => a.dist ≤ b.dist)
  match sorted with
  | [] => none
  | c :: rest =>
    match select_hospital (c :: rest) with
    | some sel => some (sel, rest.take 2)
    | none => none

/-- Candidates of the alternates counterexample: B is slightly farther than A
but has the top rating, so B wins the score scan while A stays the nearest. -/
def candA : Cand := ⟨"A", 1, 0, 0⟩

def candB : Cand := ⟨"B", 11/10, 5, 0⟩

def candC : Cand := ⟨"C", 2, 0, 0⟩

instance : IsTotal Facility topOrder := by
  constructor
  intro a b
  rcases lt_trichotomy a.current_rating b.current_rating with h | h | h
  · exact Or.inr (Or.inl h)
  · rcases le_total a.total_cases b.total_cases with hc | hc
    · exact Or.inr (Or.inr ⟨h.symm, hc⟩)
    · exact Or.inl (Or.inr ⟨h, hc⟩)
  · exact Or.inl (Or.inl h)

instance : IsTrans Facility topOrder := by
  constructor
  intro a b c hab hbc
  rcases hab with h1 | ⟨h1, h1c⟩ <;> rcases hbc with h2 | ⟨h2, h2c⟩
  · exact Or.inl (lt_trans h2 h1)
  · exact Or.inl (h2 ▸ h1)
  · exact Or.inl (h1 ▸ h2)
  · exact Or.inr ⟨h1.trans h2, le_trans h2c h1c⟩

/-- Facility rows of the `getTop` scenario: A (rating 4.5, 10 cases),
B (rating 4.5, 3 cases), C (rating 3.0, 50 cases). -/
def facA : Facility := ⟨1, "A", 9/2, 10, 8, 100⟩

def facB : Facility := ⟨2, "B", 9/2, 3, 3, 30⟩

def facC : Facility := ⟨3, "C", 3, 50, 20, 600⟩

/-- Scenario store holding the three facilities (deliberately unordered). -/
def topStore : Store := ⟨[facC, facA, facB], [], []⟩

/-- One recorded outcome together with the fate of its transaction. -/
structure CallSpec where
  args : OutcomeArgs
  persistFail : Bool

/-- Replay a sequence of `record_case_outcome` calls. -/
def applyCalls (s : Store) : List CallSpec → Store
  | [] => s
  | c :: cs => applyCalls (record_case_outcome s c.args c.persistFail).2 cs

/-- Store invariant: every facility row has a half-star rating and no more
successes than cases, and every recorded quality score lies in `[0, 100]`. -/
def StoreInv (s : Store) : Prop :=
  (∀ f ∈ s.hospitals, halfStar f.current_rating ∧ f.successful_outcomes ≤ f.total_cases) ∧
  (∀ r ∈ s.case_history, 0 ≤ r.quality ∧ r.quality ≤ 100)

/-- Store after registering the single facility of the rating scenario. -/
def storeH : Store := (register_hospital emptyStore "H").2

/-- The facility row of that store. -/
def fH : Facility := ⟨1, "H", 5/2, 0, 0, 0⟩

/-- One successful outcome with quality 100 and response time 0. -/
def argsH : OutcomeArgs := ⟨"H", "c1", "successful", 100, 0⟩

/-- Store after recording that outcome (no persistence failure). -/
def storeH1 : Store := (record_case_outcome storeH argsH false).2

/-- Helper: the freshly registered facility carries the default rating 2.5. -/
theorem ratingOf_storeH : ratingOf storeH "H" = some (5/2) := by
  norm_num [storeH, register_hospital, get_hospital_id, nextId, emptyStore, ratingOf]

/-- Helper: the recorded outcome drives the rating to 4.5, not 5.0, because
the zero average response time is falsy and is replaced by the 60-minute
default. -/
theorem ratingOf_storeH1 : ratingOf storeH1 "H" = some (9/2) := by
  norm_num [storeH1, storeH, argsH, record_case_outcome, register_hospital, get_hospital_id,
    nextId, emptyStore, update_hospital_rating, recompute_rating, calculate_new_rating,
    overall_score, response_score, pyRound, sqlAvg, truthyOr, bumpCounters, withRating,
    recordSuccessState, lookupOrRegister, ratingOf, List.find?]

/-- C2 counterexample: in the spec's scenario (zero-case facility, then one
successful outcome with quality 100 and response time 0) the resulting rating
is 4.5, not the claimed 5.0. -/
theorem scenario_rating_is_not_five :
    ratingOf storeH "H" = some (5/2) ∧ ratingOf storeH1 "H" = some (9/2) ∧
    (9/2 : ℚ) ≠ 5 :=
  ⟨ratingOf_storeH, ratingOf_storeH1, by norm_num⟩

/-- C2 amended: a zero-case facility has rating 2.5; after one
`recordOutcome(successful, quality 100, response 0)` the computed success rate
is 1 and the average quality 100, but the zero average response time is
replaced by the 60-minute default, so the response score is 50, the overall
score is 0.875, and the new rating is 4.5. -/
theorem scenario_rating_four_and_a_half :
    ratingOf storeH "H" = some (5/2) ∧
    truthyOr (sqlAvg [0]) 60 = 60 ∧
    response_score 60 = 50 ∧
    overall_score 1 100 50 = 7/8 ∧
    pyRound (7/8 * 5 * 2) = 9 ∧
    ratingOf storeH1 "H" = some (9/2) := by
  refine ⟨ratingOf_storeH, by norm_num [truthyOr, sqlAvg], by norm_num [response_score],
    by norm_num [overall_score], by norm_num [pyRound], ratingOf_storeH1⟩

/-- C1: the claim says `find_shortest_path` always returns the reference
Dijkstra distance, and the spec's design notes say the intended algorithm is
bidirectional Dijkstra with the correct frontier-sum stopping rule. On the
five-node graph `exG` (direct edge of length 10, four-hop path of length 4)
the implementation stops at the first meeting point and returns the direct
path of length 10, while the reference Dijkstra distance from node 1 to node
5 is 4: the code contradicts its own docstring ("Find shortest path"). -/
theorem bidi_first_meeting_not_shortest :
    find_shortest_path exG 1 5 100 = some (some ([1, 5], 10)) ∧
    List.lookup 5 (dijkstra exG 1) = some 4 ∧ (10 : ℕ) ≠ 4 :=
  ⟨by decide, by decide, by decide⟩

/-- C3 counterexample: with candidates A (1.0 km, rating 0), B (1.1 km,
rating 5) and C (2.0 km, rating 0), candidate B wins the score scan, yet the
alternates are unconditionally positions 1 and 2 of the nearest-first list —
so the selected facility B itself appears among the alternates. -/
theorem selected_appears_among_alternates :
    handle_accident_core [candA, candB, candC] = some (candB, [candB, candC]) ∧
    candB ∈ [candB, candC] := by
  constructor
  · norm_num [handle_accident_core, candA, candB, candC, select_hospital, selectLoop,
      combined_score, List.insertionSort, List.orderedInsert]
  · exact List.mem_cons_self _ _

/-- C3 amended: the alternates are the routed candidates at positions 1 and 2
of the nearest-first (ascending route distance) order — the next two after
the nearest candidate, not after the selected one — irrespective of which
candidate wins the score-based selection; the selected facility can therefore
appear among the alternates whenever it is not the nearest. -/
theorem alternates_next_two_after_nearest (cands : List Cand)
    (hs : List.Sorted (fun a b : Cand => a.dist ≤ b.dist) cands)
    (hne : cands ≠ []) :
    ∃ sel, select_hospital cands = some sel ∧
      handle_accident_core cands = some (sel, (cands.drop 1).take 2) := by
  have hsort : cands.insertionSort (fun a b : Cand => a.dist ≤ b.dist) = cands :=
    hs.insertionSort_eq
  cases cands with
  | nil => exact absurd rfl hne
  | cons c rest =>
    have hcore : handle_accident_core (c :: rest) =
        (match select_hospital (c :: rest) with
          | some sel => some (sel, rest.take 2)
          | none => none) := by
      unfold handle_accident_core
      rw [hsort]
    cases hbest : (selectLoop ((c :: rest).take 5) none (-1)).1 with
    | none =>
      have hsel : select_hospital (c :: rest) = some c := by
        simp only [select_hospital, hbest]
        rfl
      exact ⟨c, hsel, by rw [hcore, hsel]; rfl⟩
    | some sel =>
      have hsel : select_hospital (c :: rest) = some sel := by
        simp only [select_hospital, hbest]
      exact ⟨sel, hsel, by rw [hcore, hsel]; rfl⟩

/-- C3 witness: the amended statement at the concrete sorted candidate list
of the counterexample. -/
theorem alternates_next_two_witness :
    ∃ sel, select_hospital [candA, candB, candC] = some sel ∧
      handle_accident_core [candA, candB, candC] = some (sel, [candB, candC]) := by
  have h := alternates_next_two_after_nearest [candA, candB, candC]
    (by norm_num [List.sorted_cons, candA, candB, candC]) (by simp)
  simpa using h

/-- C8: the selection scan replaces the incumbent only on a strictly greater
combined score (0.55 times the reciprocal of distance plus 0.1, plus 0.35
times rating over 5, plus extras), so of two candidates with equal route
distance, equal rating and equal extras, the first-encountered (nearer-indexed)
one is selected. -/
theorem tie_selects_first_candidate (c1 c2 : Cand) (hd : c1.dist = c2.dist)
    (hr : c1.rating = c2.rating) (he : c1.extra = c2.extra) :
    select_hospital [c1, c2] = some c1 := by
  have hs : combined_score c2 = combined_score c1 := by
    simp [combined_score, hd, hr, he]
  simp only [select_hospital, selectLoop, List.take, hs]
  by_cases h : (-1 : ℚ) < combined_score c1
  · simp [h]
  · simp [h]

/-- C8 witness: two candidates at 2.0 km with identical ratings; the first is
selected. -/
theorem tie_selects_first_witness :
    select_hospital [⟨"X", 2, 5/2, 0⟩, ⟨"Y", 2, 5/2, 0⟩] = some ⟨"X", 2, 5/2, 0⟩ :=
  tie_selects_first_candidate ⟨"X", 2, 5/2, 0⟩ ⟨"Y", 2, 5/2, 0⟩ rfl rfl rfl

/-- C6: register is idempotent. Under the UNIQUE constraint (at most one row
with the given name), a second call returns the id of the first and leaves the
store unchanged, the store holds exactly one row with that name, and a first
call on a store without the name creates the facility with the default rating
2.5 and zero counters, returning its id. -/
theorem register_hospital_idempotent (s : Store) (name : String)
    (huniq : (s.hospitals.filter (fun f => f.name == name)).length ≤ 1) :
    (register_hospital (register_hospital s name).2 name).1 = (register_hospital s name).1 ∧
    (register_hospital (register_hospital s name).2 name).2 = (register_hospital s name).2 ∧
    ((register_hospital s name).2.hospitals.filter (fun f => f.name == name)).length = 1 ∧
    (get_hospital_id s name = none →
      ∃ f, f ∈ (register_hospital s name).2.hospitals ∧ f.name = name ∧
        f.current_rating = 5/2 ∧ f.total_cases = 0 ∧ f.successful_outcomes = 0 ∧
        f.total_response_time = 0 ∧ (register_hospital s name).1 = some f.fid) := by
  cases h : get_hospital_id s name with
  | some i =>
    obtain ⟨f0, hf0, -⟩ := Option.map_eq_some'.mp h
    have hpf0 := List.find?_some hf0
    have hmemf0 := List.mem_of_find?_eq_some hf0
    have hmem : f0 ∈ s.hospitals.filter (fun f => f.name == name) :=
      List.mem_filter.mpr ⟨hmemf0, hpf0⟩
    have hlen : 1 ≤ (s.hospitals.filter (fun f => f.name == name)).length :=
      List.length_pos.mpr (List.ne_nil_of_mem hmem)
    have hreg : register_hospital s name = (some i, s) := by
      simp [register_hospital, h]
    refine ⟨?_, ?_, ?_, ?_⟩
    · rw [hreg]
      simp [register_hospital, h]
    · rw [hreg]
      simp [register_hospital, h]
    · rw [hreg]
      exact Nat.le_antisymm huniq hlen
    · intro hnone
      exact Option.noConfusion hnone
  | none =>
    have hfind : s.hospitals.find? (fun f => f.name == name) = none :=
      Option.map_eq_none'.mp h
    have hall : ∀ f ∈ s.hospitals, ¬((fun f : Facility => f.name == name) f) :=
      List.find?_eq_none.mp hfind
    have hreg : register_hospital s name =
        (some (nextId s), { s with hospitals := s.hospitals ++ [⟨nextId s, name, 5/2, 0, 0, 0⟩] }) := by
      simp [register_hospital, h, get_hospital_id, hfind]
    have hid2 : get_hospital_id (register_hospital s name).2 name = some (nextId s) := by
      rw [hreg]
      simp [get_hospital_id, List.find?_append, hfind]
    refine ⟨?_, ?_, ?_, ?_⟩
    · rw [hreg]
      simp [register_hospital, get_hospital_id, List.find?_append, hfind]
    · rw [hreg]
      simp [register_hospital, get_hospital_id, List.find?_append, hfind]
    · rw [hreg]
      have : s.hospitals.filter (fun f => f.name == name) = [] :=
        List.filter_eq_nil_iff.mpr hall
      simp [List.filter_append, this]
    · intro _
      refine ⟨⟨nextId s, name, 5/2, 0, 0, 0⟩, ?_, rfl, rfl, rfl, rfl, rfl, ?_⟩
      · rw [hreg]
        simp
      · rw [hreg]

/-- C6 witness: registering the name Apollo twice in the empty store. -/
theorem register_hospital_idempotent_witness :
    (register_hospital (register_hospital emptyStore "Apollo").2 "Apollo").1 =
      (register_hospital emptyStore "Apollo").1 ∧
    (register_hospital (register_hospital emptyStore "Apollo").2 "Apollo").2 =
      (register_hospital emptyStore "Apollo").2 ∧
    ((register_hospital emptyStore "Apollo").2.hospitals.filter
      (fun f => f.name == "Apollo")).length = 1 ∧
    (get_hospital_id emptyStore "Apollo" = none →
      ∃ f, f ∈ (register_hospital emptyStore "Apollo").2.hospitals ∧ f.name = "Apollo" ∧
        f.current_rating = 5/2 ∧ f.total_cases = 0 ∧ f.successful_outcomes = 0 ∧
        f.total_response_time = 0 ∧ (register_hospital emptyStore "Apollo").1 = some f.fid) :=
  register_hospital_idempotent emptyStore "Apollo" (by simp [emptyStore])

/-- C7: getTop returns only facilities with recorded cases, in descending
rating order with descending case volume as tie-break, truncated to the limit;
on the scenario store (A: 4.5 stars over 10 cases, B: 4.5 stars over 3 cases,
C: 3.0 stars over 50 cases) the top two are A then B. -/
theorem get_top_hospitals_spec :
    (∀ (s : Store) (limit : ℕ),
      (∀ f ∈ get_top_hospitals s limit, 0 < f.total_cases) ∧
      List.Sorted topOrder (get_top_hospitals s limit) ∧
      (get_top_hospitals s limit).length ≤ limit) ∧
    (get_top_hospitals topStore 2).map (·.name) = ["A", "B"] := by
  constructor
  · intro s limit
    refine ⟨?_, ?_, ?_⟩
    · intro f hf
      have hf1 : f ∈ (s.hospitals.filter (fun f => 0 < f.total_cases)).insertionSort topOrder :=
        List.take_subset _ _ hf
      have hf2 : f ∈ s.hospitals.filter (fun f => 0 < f.total_cases) :=
        (List.perm_insertionSort topOrder _).subset hf1
      have := (List.mem_filter.mp hf2).2
      exact of_decide_eq_true this
    · exact List.Pairwise.sublist (List.take_sublist _ _)
        (List.sorted_insertionSort topOrder _)
    · rw [get_top_hospitals, List.length_take]
      omega
  · norm_num [get_top_hospitals, topStore, facA, facB, facC, List.insertionSort,
      List.orderedInsert, topOrder]

/-- C9: when the graph provider fails on a cache miss, the cache lookup
returns no graph and the cache is left unchanged (the failure is not cached,
so a later call retries the provider), and routed-mode route computation
falls back transparently to the fast mode, returning the successful
straight-line result. -/
theorem network_failure_falls_back_to_fast_mode (cache : GraphCache)
    (provider : ℤ × ℤ × ℤ → Option DiGraph) (hav : ℚ → ℚ → ℚ → ℚ → ℚ)
    (nearestNode : DiGraph → ℚ → ℚ → Option Nat) (fuel : ℕ)
    (alat alon hlat hlon : ℚ) (radius : ℤ)
    (hmiss : List.lookup (mkKey ((alat + hlat) / 2) ((alon + hlon) / 2) radius) cache = none)
    (hfail : provider (mkKey ((alat + hlat) / 2) ((alon + hlon) / 2) radius) = none) :
    get_road_network cache provider ((alat + hlat) / 2) ((alon + hlon) / 2) radius =
      (none, cache) ∧
    find_optimal_hospital_route hav nearestNode provider fuel cache
      alat alon hlat hlon radius false = (fast_route hav alat alon hlat hlon, cache) ∧
    (fast_route hav alat alon hlat hlon).success = true ∧
    (fast_route hav alat alon hlat hlon).fast_mode = true := by
  have hnet : get_road_network cache provider ((alat + hlat) / 2) ((alon + hlon) / 2) radius =
      (none, cache) := by
    simp [get_road_network, hmiss, hfail]
  refine ⟨hnet, ?_, rfl, rfl⟩
  simp [find_optimal_hospital_route, hnet]

/-- C9 witness: an empty cache and an always-failing provider at concrete
coordinates. -/
theorem network_failure_falls_back_witness :
    get_road_network ([] : GraphCache) (fun _ => none) ((0 + 1) / 2) ((0 + 1) / 2) 5000 =
      (none, ([] : GraphCache)) ∧
    find_optimal_hospital_route (fun _ _ _ _ => 7) (fun _ _ _ => none) (fun _ => none) 0
      ([] : GraphCache) 0 0 1 1 5000 false =
      (fast_route (fun _ _ _ _ => 7) 0 0 1 1, ([] : GraphCache)) ∧
    (fast_route (fun _ _ _ _ => (7 : ℚ)) 0 0 1 1).success = true ∧
    (fast_route (fun _ _ _ _ => (7 : ℚ)) 0 0 1 1).fast_mode = true :=
  network_failure_falls_back_to_fast_mode [] (fun _ => none) (fun _ _ _ _ => 7)
    (fun _ _ _ => none) 0 0 0 1 1 5000 rfl rfl

/-- C10: in the rating recomputation a computed average of zero is replaced by
a default (mean quality 0 becomes 50, mean response time 0 becomes 60); in
particular, a facility all of whose records have response time 0 is rated
exactly as if its average response time were 60 minutes. -/
theorem zero_averages_use_defaults (total succ : ℕ) (quals resps : List ℚ)
    (hne : resps ≠ []) (hz : ∀ x ∈ resps, x = 0) :
    recompute_rating total succ quals resps =
      calculate_new_rating total succ 60 (truthyOr (sqlAvg quals) 50) ∧
    (sqlAvg quals = some 0 →
      recompute_rating total succ quals resps = calculate_new_rating total succ 60 50) := by
  have hsum : resps.sum = 0 := List.sum_eq_zero hz
  have havg : sqlAvg resps = some 0 := by
    simp [sqlAvg, hne, hsum]
  constructor
  · rw [recompute_rating, havg]
    simp [truthyOr]
  · intro hq
    rw [recompute_rating, havg, hq]
    simp [truthyOr]

/-- C10 witness: one facility with one quality-0 record and two response-0
records. -/
theorem zero_averages_use_defaults_witness :
    (recompute_rating 1 1 [0] [0, 0] =
      calculate_new_rating 1 1 60 (truthyOr (sqlAvg [0]) 50) ∧
    (sqlAvg [0] = some 0 →
      recompute_rating 1 1 [0] [0, 0] = calculate_new_rating 1 1 60 50)) :=
  zero_averages_use_defaults 1 1 [0] [0, 0] (by simp) (by simp)

/-- Helper: a per-id update that preserves ids commutes with lookup by id. -/
theorem find?_fid_map (l : List Facility) (hid : ℕ) (u : Facility → Facility)
    (hu : ∀ f, (u f).fid = f.fid) :
    (l.map (fun f => if f.fid == hid then u f else f)).find? (fun f => f.fid == hid) =
      (l.find? (fun f => f.fid == hid)).map u := by
  induction l with
  | nil => rfl
  | cons f rest ih =>
    rw [List.map_cons]
    by_cases h : (f.fid == hid) = true
    · have hpu : ((u f).fid == hid) = true := by rw [hu f]; exact h
      have e1 : List.find? (fun q : Facility => q.fid == hid)
          (u f :: rest.map (fun q => if q.fid == hid then u q else q)) = some (u f) :=
        List.find?_cons_of_pos _ hpu
      have e2 : List.find? (fun q : Facility => q.fid == hid) (f :: rest) = some f :=
        List.find?_cons_of_pos _ h
      rw [if_pos h, e1, e2]
      rfl
    · have e1 : List.find? (fun q : Facility => q.fid == hid)
          (f :: rest.map (fun q => if q.fid == hid then u q else q)) =
          List.find? (fun q : Facility => q.fid == hid)
            (rest.map (fun q => if q.fid == hid then u q else q)) :=
        List.find?_cons_of_neg _ h
      have e2 : List.find? (fun q : Facility => q.fid == hid) (f :: rest) =
          List.find? (fun q : Facility => q.fid == hid) rest :=
        List.find?_cons_of_neg _ h
      rw [if_neg h, e1, e2, ih]

/-- Helper: rows with a different id survive a per-id update unchanged. -/
theorem mem_map_update_of_ne (l : List Facility) (hid : ℕ) (u : Facility → Facility)
    (g : Facility) (hg : g ∈ l) (hne : (g.fid == hid) = false) :
    g ∈ l.map (fun f => if f.fid == hid then u f else f) := by
  have hmem := List.mem_map_of_mem (fun f => if f.fid == hid then u f else f) hg
  simp only [hne, Bool.false_eq_true, if_false] at hmem
  exact hmem

/-- Helper: the rating recomputation never touches the case history. -/
theorem update_rating_case_history (s : Store) (hid : ℕ) :
    (update_hospital_rating s hid).case_history = s.case_history := by
  unfold update_hospital_rating
  cases h : s.hospitals.find? (fun f => f.fid == hid) with
  | none => rfl
  | some f =>
    dsimp only
    split <;> rfl

/-- Helper: effect of the rating recomputation on the facility row itself. -/
theorem update_rating_find? (s : Store) (hid : ℕ) (f : Facility)
    (hf : s.hospitals.find? (fun g => g.fid == hid) = some f) :
    (update_hospital_rating s hid).hospitals.find? (fun g => g.fid == hid) =
      some (withRating f (recompute_rating f.total_cases f.successful_outcomes
        ((s.case_history.filter (fun r => r.hospital_id == hid)).map (·.quality))
        ((s.case_history.filter (fun r => r.hospital_id == hid)).map (·.response)))) := by
  unfold update_hospital_rating
  rw [hf]
  dsimp only
  split
  · rw [find?_fid_map s.hospitals hid (fun g => withRating g (recompute_rating f.total_cases
      f.successful_outcomes ((s.case_history.filter (fun r => r.hospital_id == hid)).map (·.quality))
      ((s.case_history.filter (fun r => r.hospital_id == hid)).map (·.response))))
      (fun g => rfl), hf]
    rfl
  · rw [find?_fid_map s.hospitals hid (fun g => withRating g (recompute_rating f.total_cases
      f.successful_outcomes ((s.case_history.filter (fun r => r.hospital_id == hid)).map (·.quality))
      ((s.case_history.filter (fun r => r.hospital_id == hid)).map (·.response))))
      (fun g => rfl), hf]
    rfl

/-- Helper: rows with a different id survive the rating recomputation. -/
theorem update_rating_mem_of_ne (s : Store) (hid : ℕ) (g : Facility)
    (hg : g ∈ s.hospitals) (hne : (g.fid == hid) = false) :
    g ∈ (update_hospital_rating s hid).hospitals := by
  unfold update_hospital_rating
  cases h : s.hospitals.find? (fun f => f.fid == hid) with
  | none => exact hg
  | some f =>
    dsimp only
    split
    · exact mem_map_update_of_ne _ _ _ _ hg hne
    · exact mem_map_update_of_ne _ _ _ _ hg hne

/-- C5: recordOutcome is atomic with respect to persistence failure. For a
facility already registered under the given name: on a persistence failure the
call returns false and the store is completely unchanged (rollback); on
success it returns true, appends exactly one outcome record, and the facility
row has its case counter incremented by one, its success counter incremented
exactly when the outcome is successful, the response minutes accumulated, and
its rating recomputed from the full case history; rows of other facilities
are untouched. -/
theorem record_case_outcome_atomic (s : Store) (a : OutcomeArgs) (hid : ℕ) (f : Facility)
    (hex : get_hospital_id s a.hospital_name = some hid)
    (hf : s.hospitals.find? (fun g => g.fid == hid) = some f) :
    record_case_outcome s a true = (false, s) ∧
    (record_case_outcome s a false).1 = true ∧
    (record_case_outcome s a false).2.case_history =
      s.case_history ++ [(⟨hid, a.accident_id, a.outcome, a.quality, a.response⟩ : CaseRecord)] ∧
    (record_case_outcome s a false).2.hospitals.find? (fun g => g.fid == hid) =
      some (withRating (bumpCounters a f) (recompute_rating (f.total_cases + 1)
        (f.successful_outcomes + (if a.outcome == "successful" then 1 else 0))
        (((s.case_history ++ [(⟨hid, a.accident_id, a.outcome, a.quality, a.response⟩ : CaseRecord)]).filter
          (fun r => r.hospital_id == hid)).map (·.quality))
        (((s.case_history ++ [(⟨hid, a.accident_id, a.outcome, a.quality, a.response⟩ : CaseRecord)]).filter
          (fun r => r.hospital_id == hid)).map (·.response)))) ∧
    (∀ g ∈ s.hospitals, (g.fid == hid) = false →
      g ∈ (record_case_outcome s a false).2.hospitals) := by
  have hfailstep : record_case_outcome s a true = (false, s) := by
    unfold record_case_outcome lookupOrRegister
    rw [hex]
    rfl
  have hstep : record_case_outcome s a false =
      (true, update_hospital_rating (recordSuccessState s a hid) hid) := by
    unfold record_case_outcome lookupOrRegister
    rw [hex]
    rfl
  have hf2 : (recordSuccessState s a hid).hospitals.find? (fun g => g.fid == hid) =
      some (bumpCounters a f) := by
    show (s.hospitals.map (fun g => if g.fid == hid then bumpCounters a g else g)).find?
      (fun g => g.fid == hid) = some (bumpCounters a f)
    rw [find?_fid_map s.hospitals hid (fun g => bumpCounters a g) (fun g => rfl), hf]
    rfl
  refine ⟨hfailstep, ?_, ?_, ?_, ?_⟩
  · rw [hstep]
  · rw [hstep]
    exact update_rating_case_history _ _
  · rw [hstep]
    exact update_rating_find? (recordSuccessState s a hid) hid (bumpCounters a f) hf2
  · intro g hg hne
    rw [hstep]
    exact update_rating_mem_of_ne _ _ _ (mem_map_update_of_ne _ _ _ _ hg hne) hne

/-- C5 witness: the atomicity statement at the concrete one-facility store. -/
theorem record_case_outcome_atomic_witness :
    record_case_outcome storeH argsH true = (false, storeH) ∧
    (record_case_outcome storeH argsH false).1 = true ∧
    (record_case_outcome storeH argsH false).2.case_history =
      storeH.case_history ++
        [(⟨1, argsH.accident_id, argsH.outcome, argsH.quality, argsH.response⟩ : CaseRecord)] ∧
    (record_case_outcome storeH argsH false).2.hospitals.find? (fun g => g.fid == 1) =
      some (withRating (bumpCounters argsH fH) (recompute_rating (fH.total_cases + 1)
        (fH.successful_outcomes + (if argsH.outcome == "successful" then 1 else 0))
        (((storeH.case_history ++
          [(⟨1, argsH.accident_id, argsH.outcome, argsH.quality, argsH.response⟩ : CaseRecord)]).filter
          (fun r => r.hospital_id == 1)).map (·.quality))
        (((storeH.case_history ++
          [(⟨1, argsH.accident_id, argsH.outcome, argsH.quality, argsH.response⟩ : CaseRecord)]).filter
          (fun r => r.hospital_id == 1)).map (·.response)))) ∧
    (∀ g ∈ storeH.hospitals, (g.fid == 1) = false →
      g ∈ (record_case_outcome storeH argsH false).2.hospitals) :=
  record_case_outcome_atomic storeH argsH 1 fH rfl rfl

/-- Helper: Python rounding of a nonnegative number is nonnegative. -/
theorem pyRound_nonneg (x : ℚ) (hx : 0 ≤ x) : 0 ≤ pyRound x := by
  have h0 : (0 : ℤ) ≤ ⌊x⌋ := Int.le_floor.mpr (by exact_mod_cast hx)
  unfold pyRound
  by_cases h1 : x - ⌊x⌋ < 1/2
  · rw [if_pos h1]
    exact h0
  · rw [if_neg h1]
    by_cases h2 : (1:ℚ)/2 < x - ⌊x⌋
    · rw [if_pos h2]
      omega
    · rw [if_neg h2]
      by_cases h3 : ⌊x⌋ % 2 = 0
      · rw [if_pos h3]
        exact h0
      · rw [if_neg h3]
        omega

/-- Helper: Python rounding of a number at most 10 is at most 10. -/
theorem pyRound_le_ten (x : ℚ) (hx : x ≤ 10) : pyRound x ≤ 10 := by
  have hfle : (⌊x⌋ : ℚ) ≤ x := Int.floor_le x
  have hf10 : ⌊x⌋ ≤ 10 := by exact_mod_cast le_trans hfle hx
  unfold pyRound
  by_cases h1 : x - ⌊x⌋ < 1/2
  · rw [if_pos h1]
    exact hf10
  · rw [if_neg h1]
    have h2 : 1/2 ≤ x - ⌊x⌋ := not_lt.mp h1
    have h9 : (⌊x⌋ : ℚ) < 10 := by linarith
    have h9i : ⌊x⌋ < 10 := by exact_mod_cast h9
    by_cases h3 : (1:ℚ)/2 < x - ⌊x⌋
    · rw [if_pos h3]
      omega
    · rw [if_neg h3]
      by_cases h4 : ⌊x⌋ % 2 = 0
      · rw [if_pos h4]
        exact hf10
      · rw [if_neg h4]
        omega

/-- Helper: the truthy-defaulted SQL average of values in `[0, 100]` stays in
`[0, 100]`. -/
theorem avg_bounds (l : List ℚ) (h : ∀ x ∈ l, 0 ≤ x ∧ x ≤ 100) :
    0 ≤ truthyOr (sqlAvg l) 50 ∧ truthyOr (sqlAvg l) 50 ≤ 100 := by
  cases l with
  | nil =>
    norm_num [sqlAvg, truthyOr]
  | cons y ys =>
    have hlen : (0:ℚ) < ((y :: ys).length : ℚ) := by
      exact_mod_cast Nat.succ_pos ys.length
    have hsum0 : 0 ≤ (y :: ys).sum := List.sum_nonneg (fun x hx => (h x hx).1)
    have hsum1 : (y :: ys).sum ≤ ((y :: ys).length : ℚ) * 100 := by
      have hb := List.sum_le_card_nsmul (y :: ys) 100 (fun x hx => (h x hx).2)
      rwa [nsmul_eq_mul] at hb
    have havg0 : 0 ≤ (y :: ys).sum / ((y :: ys).length : ℚ) := div_nonneg hsum0 hlen.le
    have havg1 : (y :: ys).sum / ((y :: ys).length : ℚ) ≤ 100 := by
      rw [div_le_iff₀ hlen]
      linarith
    have hsql : sqlAvg (y :: ys) = some ((y :: ys).sum / ((y :: ys).length : ℚ)) := by
      simp [sqlAvg]
    rw [hsql]
    simp only [truthyOr]
    by_cases hz : (y :: ys).sum / ((y :: ys).length : ℚ) = 0
    · rw [if_pos hz]
      norm_num
    · rw [if_neg hz]
      exact ⟨havg0, havg1⟩

/-- Helper: the recomputed rating is always a half-star value when the inputs
satisfy the data-model bounds. -/
theorem calculate_new_rating_halfStar (total succ : ℕ) (avgR avgQ : ℚ)
    (hs : succ ≤ total) (hq0 : 0 ≤ avgQ) (hq1 : avgQ ≤ 100) :
    halfStar (calculate_new_rating total succ avgR avgQ) := by
  unfold calculate_new_rating
  by_cases ht : total = 0
  · rw [if_pos ht]
    exact ⟨5, by norm_num, by norm_num⟩
  · rw [if_neg ht]
    have htpos : (0 : ℚ) < (total : ℚ) := by
      exact_mod_cast Nat.pos_of_ne_zero ht
    have hsr0 : 0 ≤ (succ : ℚ) / (total : ℚ) := div_nonneg (by positivity) htpos.le
    have hsr1 : (succ : ℚ) / (total : ℚ) ≤ 1 := by
      rw [div_le_one htpos]
      exact_mod_cast hs
    have hrs0 : 0 ≤ response_score avgR := le_max_left _ _
    have hrs1 : response_score avgR ≤ 100 := max_le (by norm_num) (min_le_left _ _)
    have hov0 : 0 ≤ overall_score ((succ : ℚ) / (total : ℚ)) avgQ (response_score avgR) := by
      unfold overall_score
      have t1 : 0 ≤ (succ : ℚ) / (total : ℚ) * (2/5) := mul_nonneg hsr0 (by norm_num)
      have t2 : 0 ≤ avgQ / 100 * (7/20) := mul_nonneg (div_nonneg hq0 (by norm_num)) (by norm_num)
      have t3 : 0 ≤ response_score avgR / 100 * (1/4) :=
        mul_nonneg (div_nonneg hrs0 (by norm_num)) (by norm_num)
      linarith
    have hov1 : overall_score ((succ : ℚ) / (total : ℚ)) avgQ (response_score avgR) ≤ 1 := by
      unfold overall_score
      linarith
    have h0 := pyRound_nonneg
      (overall_score ((succ : ℚ) / (total : ℚ)) avgQ (response_score avgR) * 5 * 2) (by linarith)
    have h10 := pyRound_le_ten
      (overall_score ((succ : ℚ) / (total : ℚ)) avgQ (response_score avgR) * 5 * 2) (by linarith)
    refine ⟨(pyRound (overall_score ((succ : ℚ) / (total : ℚ)) avgQ
      (response_score avgR) * 5 * 2)).toNat, by omega, ?_⟩
    have hcast : (((pyRound (overall_score ((succ : ℚ) / (total : ℚ)) avgQ
        (response_score avgR) * 5 * 2)).toNat : ℤ) : ℚ) =
        ((pyRound (overall_score ((succ : ℚ) / (total : ℚ)) avgQ
          (response_score avgR) * 5 * 2) : ℤ) : ℚ) := by
      exact_mod_cast congrArg Int.cast (Int.toNat_of_nonneg h0)
    push_cast at hcast ⊢
    rw [hcast]

/-- Helper: registration preserves the store invariant. -/
theorem storeInv_register (s : Store) (name : String) (h : StoreInv s) :
    StoreInv (register_hospital s name).2 := by
  unfold register_hospital
  cases hg : get_hospital_id s name with
  | some i => exact h
  | none =>
    dsimp only
    constructor
    · intro f hf
      rcases List.mem_append.mp hf with hf | hf
      · exact h.1 f hf
      · rcases List.mem_singleton.mp hf with rfl
        exact ⟨⟨5, by norm_num, by norm_num⟩, le_refl 0⟩
    · exact h.2

/-- Helper: the lookup-or-register phase preserves the store invariant. -/
theorem storeInv_lookup (s : Store) (name : String) (h : StoreInv s) :
    StoreInv (lookupOrRegister s name).2 := by
  unfold lookupOrRegister
  cases hg : get_hospital_id s name with
  | some i => exact h
  | none => exact storeInv_register s name h

/-- Helper: the case insert and counter update preserve the store invariant
when the new record's quality score is in range. -/
theorem storeInv_recordSuccess (s : Store) (a : OutcomeArgs) (hid : ℕ)
    (h : StoreInv s) (hq0 : 0 ≤ a.quality) (hq1 : a.quality ≤ 100) :
    StoreInv (recordSuccessState s a hid) := by
  constructor
  · intro g hg
    have hg2 : g ∈ s.hospitals.map (fun q => if q.fid == hid then bumpCounters a q else q) := hg
    obtain ⟨g0, hg0, hg0e⟩ := List.mem_map.mp hg2
    have hinv := h.1 g0 hg0
    by_cases hc : (g0.fid == hid) = true
    · rw [if_pos hc] at hg0e
      subst hg0e
      refine ⟨hinv.1, ?_⟩
      show g0.successful_outcomes + (if a.outcome == "successful" then 1 else 0) ≤
        g0.total_cases + 1
      have := hinv.2
      split <;> omega
    · rw [if_neg hc] at hg0e
      subst hg0e
      exact hinv
  · intro r hr
    have hr2 : r ∈ s.case_history ++
      [(⟨hid, a.accident_id, a.outcome, a.quality, a.response⟩ : CaseRecord)] := hr
    rcases List.mem_append.mp hr2 with hr3 | hr3
    · exact h.2 r hr3
    · rcases List.mem_singleton.mp hr3 with rfl
      exact ⟨hq0, hq1⟩

/-- Helper: the rating recomputation preserves the store invariant. -/
theorem storeInv_update (s : Store) (hid : ℕ) (h : StoreInv s) :
    StoreInv (update_hospital_rating s hid) := by
  unfold update_hospital_rating
  cases hf : s.hospitals.find? (fun f => f.fid == hid) with
  | none => exact h
  | some f =>
    dsimp only
    have hfmem := List.mem_of_find?_eq_some hf
    have hfinv := h.1 f hfmem
    have hqbounds : ∀ x ∈ (s.case_history.filter (fun r => r.hospital_id == hid)).map
        (·.quality), 0 ≤ x ∧ x ≤ 100 := by
      intro x hx
      obtain ⟨r, hr, rfl⟩ := List.mem_map.mp hx
      exact h.2 r (List.mem_of_mem_filter hr)
    have havg := avg_bounds _ hqbounds
    have hnr : halfStar (recompute_rating f.total_cases f.successful_outcomes
        ((s.case_history.filter (fun r => r.hospital_id == hid)).map (·.quality))
        ((s.case_history.filter (fun r => r.hospital_id == hid)).map (·.response))) :=
      calculate_new_rating_halfStar _ _ _ _ hfinv.2 havg.1 havg.2
    have hcore : StoreInv { s with hospitals := s.hospitals.map (fun g =>
        if g.fid == hid then withRating g (recompute_rating f.total_cases f.successful_outcomes
          ((s.case_history.filter (fun r => r.hospital_id == hid)).map (·.quality))
          ((s.case_history.filter (fun r => r.hospital_id == hid)).map (·.response))) else g) } := by
      constructor
      · intro g hg
        obtain ⟨g0, hg0, hg0e⟩ := List.mem_map.mp hg
        have hinv := h.1 g0 hg0
        by_cases hc : (g0.fid == hid) = true
        · rw [if_pos hc] at hg0e
          subst hg0e
          exact ⟨hnr, hinv.2⟩
        · rw [if_neg hc] at hg0e
          subst hg0e
          exact hinv
      · exact h.2
    split
    · exact ⟨hcore.1, hcore.2⟩
    · exact hcore

/-- Helper: one entire `record_case_outcome` call preserves the invariant. -/
theorem storeInv_record (s : Store) (a : OutcomeArgs) (pf : Bool) (h : StoreInv s)
    (hq0 : 0 ≤ a.quality) (hq1 : a.quality ≤ 100) :
    StoreInv (record_case_outcome s a pf).2 := by
  unfold record_case_outcome
  have hlk := storeInv_lookup s a.hospital_name h
  cases hl : lookupOrRegister s a.hospital_name with
  | mk oid s1 =>
    rw [hl] at hlk
    cases oid with
    | none => exact hlk
    | some hid =>
      dsimp only
      cases pf with
      | true => exact hlk
      | false =>
        show StoreInv (update_hospital_rating (recordSuccessState s1 a hid) hid)
        exact storeInv_update _ _ (storeInv_recordSuccess s1 a hid hlk hq0 hq1)

/-- Helper: replaying any admissible call sequence preserves the invariant. -/
theorem applyCalls_inv (calls : List CallSpec) (s : Store) (h : StoreInv s)
    (hc : ∀ c ∈ calls, 0 ≤ c.args.quality ∧ c.args.quality ≤ 100) :
    StoreInv (applyCalls s calls) := by
  induction calls generalizing s with
  | nil => exact h
  | cons c cs ih =>
    have hhead := hc c (List.mem_cons_self c cs)
    exact ih (record_case_outcome s c.args c.persistFail).2
      (storeInv_record s c.args c.persistFail h hhead.1 hhead.2)
      (fun d hd => hc d (List.mem_cons_of_mem c hd))

/-- C4: after every finite sequence of recordOutcome calls whose arguments
satisfy the preconditions (quality score in `[0, 100]`, response minutes
nonnegative), each facility's current rating is a multiple of 0.5 in
`[0, 5]`. -/
theorem rating_always_half_star (calls : List CallSpec)
    (hc : ∀ c ∈ calls, 0 ≤ c.args.quality ∧ c.args.quality ≤ 100 ∧ 0 ≤ c.args.response) :
    ∀ f ∈ (applyCalls emptyStore calls).hospitals, halfStar f.current_rating := by
  have hinv : StoreInv emptyStore := by
    constructor
    · intro f hf
      exact absurd hf (List.not_mem_nil f)
    · intro r hr
      exact absurd hr (List.not_mem_nil r)
  have hfin := applyCalls_inv calls emptyStore hinv
    (fun c hmem => ⟨(hc c hmem).1, (hc c hmem).2.1⟩)
  exact fun f hf => (hfin.1 f hf).1

/-- Helper: concrete evaluation of the one-call replay for the C4 witness. -/
theorem applyCalls_singleton_eval :
    (applyCalls emptyStore [⟨⟨"H", "c1", "successful", 100, 0⟩, false⟩]).hospitals =
      [⟨1, "H", 9/2, 1, 1, 0⟩] := by
  norm_num [applyCalls, record_case_outcome, lookupOrRegister, register_hospital,
    get_hospital_id, nextId, emptyStore, update_hospital_rating, recompute_rating,
    calculate_new_rating, overall_score, response_score, pyRound, sqlAvg, truthyOr,
    bumpCounters, withRating, recordSuccessState, List.find?]

/-- C4 witness: after a single successful call with quality 100 and response 0
the resulting facility row carries the half-star rating 4.5. -/
theorem rating_always_half_star_witness :
    halfStar ((⟨1, "H", 9/2, 1, 1, 0⟩ : Facility)).current_rating :=
  rating_always_half_star [⟨⟨"H", "c1", "successful", 100, 0⟩, false⟩]
    (by intro c hmem; rcases List.mem_singleton.mp hmem with rfl; norm_num)
    ⟨1, "H", 9/2, 1, 1, 0⟩
    (by rw [applyCalls_singleton_eval]; exact List.mem_singleton.mpr rfl)
